import Mathlib

/-!
Verification of the transcript-merging core of whisper-diary
(`src/app/utils/transcriptMerger.ts`) against its natural-language
specification.  The TypeScript source is shallowly embedded below:
JavaScript numbers appearing in this code path are non-negative integers
(durations in milliseconds and timecode components), so they are modelled
as `Nat`; the one fractional value, the segment midpoint
`start + (end - start) / 2`, is modelled as `ℚ`.  A JavaScript `NaN`
(arising from `Number` applied to a non-numeric string) is modelled as
`Option.none`, with comparisons against it false, as in JavaScript.
-/

namespace WhisperDiary

/-- Model of `String.prototype.split` with a one-character separator,
written by structural recursion on the character list so that it reduces
in the kernel.  `splitOnChar ';' ""` is `[""]`, as in JavaScript. -/
def splitOnCharAux (sep : Char) : List Char → List Char → List String
  | [], acc => [String.mk acc.reverse]
  | c :: cs, acc =>
      if c = sep then String.mk acc.reverse :: splitOnCharAux sep cs []
      else splitOnCharAux sep cs (c :: acc)

def splitOnChar (sep : Char) (s : String) : List String :=
  splitOnCharAux sep s.data []

def dropLeadingWs : List Char → List Char
  | [] => []
  | c :: cs => if c.isWhitespace then dropLeadingWs cs else c :: cs

/-- Model of `String.prototype.trim` (and of the `trim: true` parse
option): leading and trailing whitespace removed, written structurally so
it reduces in the kernel. -/
def strTrim (s : String) : String :=
  String.mk (dropLeadingWs (dropLeadingWs s.data.reverse).reverse)

/-- Numeric value of a big-endian decimal digit string. -/
def digitsToNat (cs : List Char) : Nat :=
  cs.foldl (fun acc c => acc * 10 + (c.toNat - 48)) 0

/-- Model of the JavaScript `Number` coercion on the strings this code
feeds it: a non-empty string of decimal digits yields its value, the
empty string yields `0`, and anything else (in particular a
colon-separated timecode such as `"00:00:05:00"`) is `NaN`, modelled as
`none`.  (Signed, fractional and exponent literals do not occur in the
merger's inputs and are outside the modelled domain.) -/
def jsNumber (s : String) : Option Nat :=
  if s.data = [] then some 0
  else if s.data.all Char.isDigit then some (digitsToNat s.data)
  else none

/-- Embedding of `timecodeToMs` (transcriptMerger.ts:31-34):
`timecode.split(';')` destructured into four components, each coerced by
`Number`, then `h*3600000 + m*60000 + s*1000 + Math.floor(f * (1000/30))`.
If the string has fewer than four `;`-separated parts, or a part is not
numeric, the JavaScript arithmetic is `NaN` (`none` here); extra parts are
ignored, as by array destructuring.  `Math.floor (f * (1000/30))` on a
non-negative integer `f` is `f * 1000 / 30` in exact arithmetic (the
double rounding agrees for every `f` below 10^13). -/
def timecodeToMs (timecode : String) : Option Nat :=
  match splitOnChar ';' timecode with
  | hs :: ms :: ss :: fs :: _ =>
      match jsNumber hs, jsNumber ms, jsNumber ss, jsNumber fs with
      | some hours, some minutes, some seconds, some frames =>
          some (hours * 3600000 + minutes * 60000 + seconds * 1000 + frames * 1000 / 30)
      | _, _, _, _ => none
  | _ => none

/-- Decimal digit character, `'0'` through `'9'` for `d < 10`. -/
def decDigit (d : Nat) : Char := Char.ofNat (48 + d)

/-- Little-endian decimal digits of `n`, with explicit fuel so the
recursion is structural (the fuel is instantiated with `n` itself, which
always suffices). -/
def digsLE : Nat → Nat → List Nat
  | 0, _ => []
  | fuel + 1, n => if n = 0 then [] else n % 10 :: digsLE fuel (n / 10)

/-- Decimal rendering of a natural number: the model of the JavaScript
number-to-string conversion inside the template literal of
`msToTimecode`. -/
def natRepr (n : Nat) : String :=
  if n = 0 then "0" else String.mk (((digsLE n n).reverse).map decDigit)

/-- Model of `String.prototype.padStart(2, '0')`. -/
def padStart2 (s : String) : String :=
  String.mk (List.replicate (2 - s.length) '0') ++ s

/-- Embedding of `msToTimecode` (transcriptMerger.ts:37-44). -/
def msToTimecode (ms : Nat) : String :=
  let hours := ms / 3600000
  let minutes := (ms % 3600000) / 60000
  let seconds := (ms % 60000) / 1000
  let frames := (ms % 1000) * 30 / 1000
  padStart2 (natRepr hours) ++ ";" ++ padStart2 (natRepr minutes) ++ ";" ++
    padStart2 (natRepr seconds) ++ ";" ++ padStart2 (natRepr frames)

/-- `WhisperSegment` (transcriptMerger.ts:4-8): one transcribed utterance. -/
structure WhisperSegment where
  start : Nat
  «end» : Nat
  text : String
deriving DecidableEq, Repr

/-- `PremiereSegment` (transcriptMerger.ts:10-15): one speaker marker row. -/
structure PremiereSegment where
  «Speaker Name» : String
  «Start Time» : String
  «End Time» : String
  «Text» : String
deriving DecidableEq, Repr

/-- `EnhancedSegment` (transcriptMerger.ts:17-22): a speaker-attributed
segment. -/
structure EnhancedSegment where
  speaker : String
  startTime : Nat
  endTime : Nat
  text : String
deriving DecidableEq, Repr

/-- `TranscriptOutput` (transcriptMerger.ts:24-28): the three renders. -/
structure TranscriptOutput where
  csv : String
  markdownWithTimestamps : String
  markdownClean : String
deriving DecidableEq, Repr

/-- Embedding of `findSpeakerAtTime` (transcriptMerger.ts:47-56): linear
scan in list order; a marker whose timecodes do not convert (NaN bounds)
never matches, since both JavaScript comparisons are false. -/
def findSpeakerAtTime (timeMs : ℚ) : List PremiereSegment → String
  | [] => "Unknown"
  | segment :: rest =>
      match timecodeToMs segment.«Start Time», timecodeToMs segment.«End Time» with
      | some startMs, some endMs =>
          if (startMs : ℚ) ≤ timeMs ∧ timeMs ≤ (endMs : ℚ) then segment.«Speaker Name»
          else findSpeakerAtTime timeMs rest
      | _, _ => findSpeakerAtTime timeMs rest

/-- The condition under which a marker captures a probe time in
`findSpeakerAtTime`: both timecodes convert and the interval contains the
probe inclusively on both ends. -/
def markerContains (timeMs : ℚ) (segment : PremiereSegment) : Bool :=
  match timecodeToMs segment.«Start Time», timecodeToMs segment.«End Time» with
  | some startMs, some endMs => decide ((startMs : ℚ) ≤ timeMs ∧ timeMs ≤ (endMs : ℚ))
  | _, _ => false

/-- The `{text, startTime, endTime}` objects pushed into
`currentSegments` inside `generateMarkdown`. -/
structure GMItem where
  text : String
  startTime : Nat
  endTime : Nat
deriving DecidableEq, Repr

def gmItem (s : EnhancedSegment) : GMItem :=
  { text := s.text, startTime := s.startTime, endTime := s.endTime }

/-- One rendered line of a block (transcriptMerger.ts:81-85). -/
def gmLine (includeTimestamps : Bool) (seg : GMItem) : String :=
  if includeTimestamps then
    "[" ++ msToTimecode seg.startTime ++ " - " ++ msToTimecode seg.endTime ++ "] " ++
      seg.text ++ "\n"
  else seg.text ++ "\n"

/-- One flushed block (transcriptMerger.ts:78-88): heading, one line per
buffered segment, blank line. -/
def gmFlush (includeTimestamps : Bool) (speaker : String) (segs : List GMItem) : String :=
  "**" ++ speaker ++ "**\n" ++ String.join (segs.map (gmLine includeTimestamps)) ++ "\n"

/-- The `forEach` loop of `generateMarkdown` (transcriptMerger.ts:64-108)
as explicit state passing.  The singleton case is the loop body at
`index === segments.length - 1`, where the branch condition is true
regardless of the speaker: the current segment is pushed into the pending
buffer and the buffer (now non-empty) is flushed under the *pending*
`currentSpeaker`.  The cons-cons case is the body at a non-final index:
on a speaker change the non-empty buffer is flushed and the segment
starts a fresh buffer under the new speaker; otherwise the segment is
appended to the buffer. -/
def gmGo (includeTimestamps : Bool) (currentSpeaker : String) (buf : List GMItem) :
    List EnhancedSegment → String
  | [] => ""
  | [s] => gmFlush includeTimestamps currentSpeaker (buf ++ [gmItem s])
  | s :: s2 :: rest =>
      if s.speaker ≠ currentSpeaker then
        (if buf.isEmpty then "" else gmFlush includeTimestamps currentSpeaker buf) ++
          gmGo includeTimestamps s.speaker [gmItem s] (s2 :: rest)
      else
        gmGo includeTimestamps currentSpeaker (buf ++ [gmItem s]) (s2 :: rest)

/-- Embedding of `generateMarkdown` (transcriptMerger.ts:59-112): initial
state is empty accumulated markdown, empty `currentSpeaker`, empty
buffer. -/
def generateMarkdown (segments : List EnhancedSegment) (includeTimestamps : Bool) : String :=
  gmGo includeTimestamps "" [] segments

/-- The block structure traversed by `generateMarkdown`, extracted for
analysis: the same accumulate/flush scan, recording each flushed
`(heading, buffered segments)` pair instead of rendering it. -/
def gmBlocksGo (currentSpeaker : String) (buf : List GMItem) :
    List EnhancedSegment → List (String × List GMItem)
  | [] => []
  | [s] => [(currentSpeaker, buf ++ [gmItem s])]
  | s :: s2 :: rest =>
      if s.speaker ≠ currentSpeaker then
        (if buf.isEmpty then [] else [(currentSpeaker, buf)]) ++
          gmBlocksGo s.speaker [gmItem s] (s2 :: rest)
      else
        gmBlocksGo currentSpeaker (buf ++ [gmItem s]) (s2 :: rest)

def gmBlocks (segments : List EnhancedSegment) : List (String × List GMItem) :=
  gmBlocksGo "" [] segments

/-- Escaping of `"` as `""` inside a quoted CSV field (the `escape: '"'`
option of the stringifier). -/
def csvEscape : List Char → List Char
  | [] => []
  | c :: cs => if c = '"' then '"' :: '"' :: csvEscape cs else c :: csvEscape cs

/-- One CSV field under `quoted: true`: every non-empty field is wrapped
in double quotes with inner quotes doubled; an empty field stays empty. -/
def csvField (s : String) : String :=
  if s = "" then "" else "\"" ++ String.mk (csvEscape s.data) ++ "\""

def commaJoin : List String → String
  | [] => ""
  | [f] => f
  | f :: fs => f ++ "," ++ commaJoin fs

/-- One CSV record, terminated by the `\n` record delimiter. -/
def csvRow (fields : List String) : String :=
  commaJoin (fields.map csvField) ++ "\n"

/-- Model of the `csv-stringify/sync` call in `mergeTranscripts`
(transcriptMerger.ts:149-162) with `header: true`, the explicit column
list `['speaker','startTime','endTime','text']`, `quoted: true` and
`quote`/`escape` both `"`.  With an explicit column list the library
emits the header row even when there are zero records. -/
def csvStringify (records : List (List String)) : String :=
  csvRow ["speaker", "startTime", "endTime", "text"] ++
    String.join (records.map csvRow)

/-- The enhancement pass of `mergeTranscripts` (transcriptMerger.ts:133-144):
each whisper segment is attributed to the speaker found at its midpoint
`start + (end - start) / 2` (a JavaScript float division, hence `ℚ`),
with the text trimmed. -/
def enhanceSegments (whisperSegments : List WhisperSegment)
    (premiereSegments : List PremiereSegment) : List EnhancedSegment :=
  whisperSegments.map fun w =>
    let midpointMs : ℚ := (w.start : ℚ) + ((w.«end» : ℚ) - (w.start : ℚ)) / 2
    { speaker := findSpeakerAtTime midpointMs premiereSegments
      startTime := w.start
      endTime := w.«end»
      text := strTrim w.text }

/-- The core of `mergeTranscripts` (transcriptMerger.ts:114-169) after the
two `csv-parse` calls: enhancement, CSV render, and both markdown
renders. -/
def mergeTranscriptsCore (whisperSegments : List WhisperSegment)
    (premiereSegments : List PremiereSegment) : TranscriptOutput :=
  let enhancedSegments := enhanceSegments whisperSegments premiereSegments
  { csv := csvStringify (enhancedSegments.map fun s =>
      [s.speaker, msToTimecode s.startTime, msToTimecode s.endTime, s.text])
    markdownWithTimestamps := generateMarkdown enhancedSegments true
    markdownClean := generateMarkdown enhancedSegments false }

/-- Modelled from the spec: the tabular parser for the speech-source
input (the external `csv-parse` call at transcriptMerger.ts:116-121,
whose implementation is not part of this repository).  Per spec §4.1 it
turns delimited text with a header row into records mapping header names
to trimmed values, with numeric coercion of the `start`/`end` fields. -/
def parseWhisperCsv (raw : String) : List WhisperSegment :=
  match (splitOnChar '\n' raw).filter (fun l => strTrim l ≠ "") with
  | [] => []
  | header :: rows =>
      let cols := (splitOnChar ',' header).map strTrim
      rows.map fun line =>
        let fields := (splitOnChar ',' line).map strTrim
        let get := fun (name : String) =>
          match cols.findIdx? (fun c => c = name) with
          | some i => fields.getD i ""
          | none => ""
        { start := ((get "start").toNat?).getD 0
          «end» := ((get "end").toNat?).getD 0
          text := get "text" }

/-- Modelled from the spec: the tolerant tabular parser for the
editor-source input (the external `csv-parse` call at
transcriptMerger.ts:123-132).  Per spec §4.1 it produces records keyed by
`Speaker Name`, `Start Time`, `End Time`, `Text` and silently drops rows
containing empty required fields (`skip_records_with_empty_values`). -/
def parsePremiereCsv (raw : String) : List PremiereSegment :=
  match (splitOnChar '\n' raw).filter (fun l => strTrim l ≠ "") with
  | [] => []
  | header :: rows =>
      let cols := (splitOnChar ',' header).map strTrim
      rows.filterMap fun line =>
        let fields := (splitOnChar ',' line).map strTrim
        let get := fun (name : String) =>
          match cols.findIdx? (fun c => c = name) with
          | some i => fields.getD i ""
          | none => ""
        let record : PremiereSegment :=
          { «Speaker Name» := get "Speaker Name"
            «Start Time» := get "Start Time"
            «End Time» := get "End Time"
            «Text» := get "Text" }
        if record.«Speaker Name» = "" ∨ record.«Start Time» = "" ∨
            record.«End Time» = "" ∨ record.«Text» = "" then none
        else some record

/-- Embedding of the exported `mergeTranscripts` (transcriptMerger.ts:114-169):
parse both raw strings, then run the enhancement and the three
renders. -/
def mergeTranscripts (whisperCsv : String) (premiereCsv : String) : TranscriptOutput :=
  mergeTranscriptsCore (parseWhisperCsv whisperCsv) (parsePremiereCsv premiereCsv)

/-- Value of a little-endian digit list. -/
def valLE (le : List Nat) : Nat :=
  le.foldr (fun d acc => acc * 10 + d) 0

/-- A millisecond value lying on a 30fps frame boundary: the (floored)
millisecond position of some whole frame count. -/
def frameAligned (m : Nat) : Prop :=
  ∃ frameCount : Nat, m = frameCount * 1000 / 30

/-- The parsed speech-source input of the spec's single-segment scenario. -/
def scenarioWhisper : List WhisperSegment := [⟨1000, 3000, "hello"⟩]

/-- The parsed editor-source input of the spec's single-segment scenario:
exactly the marker given there, with its colon-separated timecode
strings. -/
def scenarioPremiere : List PremiereSegment :=
  [⟨"Alice", "00:00:00:00", "00:00:05:00", ""⟩]

end WhisperDiary

namespace WhisperDiary

theorem digsLE_lt : ∀ fuel n d, d ∈ digsLE fuel n → d < 10 := by
  intro fuel
  induction fuel with
  | zero => intro n d h; simp [digsLE] at h
  | succ fuel ih =>
      intro n d h
      by_cases hn : n = 0
      · simp [digsLE, hn] at h
      · simp only [digsLE, hn, if_false, List.mem_cons] at h
        rcases h with rfl | h
        · exact Nat.mod_lt n (by omega)
        · exact ih _ _ h

theorem valLE_digsLE : ∀ fuel n, n ≤ fuel → valLE (digsLE fuel n) = n := by
  intro fuel
  induction fuel with
  | zero => intro n h; interval_cases n; rfl
  | succ fuel ih =>
      intro n h
      by_cases hn : n = 0
      · simp [digsLE, hn, valLE]
      · have hdiv : n / 10 < n := Nat.div_lt_self (Nat.pos_of_ne_zero hn) (by omega)
        have : valLE (digsLE fuel (n / 10)) = n / 10 := ih _ (by omega)
        simp only [digsLE, hn, if_false, valLE, List.foldr_cons]
        rw [show List.foldr (fun d acc => acc * 10 + d) 0 (digsLE fuel (n / 10))
              = valLE (digsLE fuel (n / 10)) from rfl, this]
        omega

theorem digsLE_ne_nil (fuel n : Nat) (hn : n ≠ 0) (hf : fuel ≠ 0) :
    digsLE fuel n ≠ [] := by
  cases fuel with
  | zero => exact absurd rfl hf
  | succ fuel => simp [digsLE, hn]

theorem decDigit_isDigit : ∀ d, d < 10 → (decDigit d).isDigit = true := by
  decide

theorem decDigit_toNat : ∀ d, d < 10 → (decDigit d).toNat - 48 = d := by
  decide

theorem digitsToNat_rev_map (le : List Nat) (h : ∀ d ∈ le, d < 10) :
    digitsToNat ((le.reverse).map decDigit) = valLE le := by
  rw [digitsToNat, List.foldl_map, List.foldl_reverse]
  induction le with
  | nil => rfl
  | cons d tail ih =>
      have hd : d < 10 := h d (List.mem_cons_self d tail)
      have : ∀ e ∈ tail, e < 10 := fun e he => h e (List.mem_cons_of_mem d he)
      simp only [List.foldr_cons, ih this, valLE, decDigit_toNat d hd]

theorem natRepr_data_digits (n : Nat) : ∀ c ∈ (natRepr n).data, c.isDigit = true := by
  intro c hc
  by_cases hn : n = 0
  · simp only [natRepr, hn, if_true] at hc
    simp only [show ("0" : String).data = ['0'] from rfl, List.mem_singleton] at hc
    subst hc; decide
  · simp only [natRepr, hn, if_false, List.mem_map] at hc
    obtain ⟨d, hd, rfl⟩ := hc
    exact decDigit_isDigit d (digsLE_lt n n d (List.mem_reverse.mp hd))

theorem padStart2_data_digits (s : String) (h : ∀ c ∈ s.data, c.isDigit = true) :
    ∀ c ∈ (padStart2 s).data, c.isDigit = true := by
  intro c hc
  simp only [padStart2, String.data_append, List.mem_append, List.mem_replicate] at hc
  rcases hc with ⟨-, rfl⟩ | hc
  · decide
  · exact h c hc

theorem digitsToNat_zeros_append (k : Nat) (cs : List Char) :
    digitsToNat (List.replicate k '0' ++ cs) = digitsToNat cs := by
  induction k with
  | zero => rfl
  | succ k ih => simpa [List.replicate_succ, digitsToNat] using ih

theorem jsNumber_of_digits (s : String) (hne : s.data ≠ [])
    (h : ∀ c ∈ s.data, c.isDigit = true) :
    jsNumber s = some (digitsToNat s.data) := by
  simp only [jsNumber, hne, if_false, List.all_eq_true]
  rw [if_pos]
  exact fun c hc => h c hc

theorem natRepr_data (n : Nat) :
    (natRepr n).data = if n = 0 then ['0'] else ((digsLE n n).reverse).map decDigit := by
  by_cases hn : n = 0 <;> simp [natRepr, hn]

theorem jsNumber_natRepr (n : Nat) : jsNumber (natRepr n) = some n := by
  rw [jsNumber_of_digits _ _ (natRepr_data_digits n)]
  · congr 1
    rw [natRepr_data]
    by_cases hn : n = 0
    · simp [hn]; rfl
    · simp only [hn, if_false]
      rw [digitsToNat_rev_map _ (fun d hd => digsLE_lt n n d hd)]
      exact valLE_digsLE n n le_rfl
  · rw [natRepr_data]
    by_cases hn : n = 0
    · simp [hn]
    · simp only [hn, if_false, ne_eq, List.map_eq_nil_iff, List.reverse_eq_nil_iff]
      exact digsLE_ne_nil n n hn hn

theorem jsNumber_padStart2 (s : String) (hne : s.data ≠ [])
    (h : ∀ c ∈ s.data, c.isDigit = true) :
    jsNumber (padStart2 s) = jsNumber s := by
  rw [jsNumber_of_digits s hne h,
    jsNumber_of_digits (padStart2 s) ?_ (padStart2_data_digits s h)]
  · simp only [padStart2, String.data_append]
    rw [digitsToNat_zeros_append]
  · simp only [padStart2, String.data_append, ne_eq, List.append_eq_nil, not_and]
    intro _; exact hne

theorem natRepr_data_ne_nil (n : Nat) : (natRepr n).data ≠ [] := by
  rw [natRepr_data]
  by_cases hn : n = 0
  · simp [hn]
  · simp only [hn, if_false, ne_eq, List.map_eq_nil_iff, List.reverse_eq_nil_iff]
    exact digsLE_ne_nil n n hn hn

theorem jsNumber_padStart2_natRepr (n : Nat) :
    jsNumber (padStart2 (natRepr n)) = some n := by
  rw [jsNumber_padStart2 _ (natRepr_data_ne_nil n) (natRepr_data_digits n)]
  exact jsNumber_natRepr n

theorem splitOnCharAux_no_sep (sep : Char) :
    ∀ (xs : List Char), (∀ c ∈ xs, c ≠ sep) → ∀ acc,
      splitOnCharAux sep xs acc = [String.mk (acc.reverse ++ xs)] := by
  intro xs
  induction xs with
  | nil => intro _ acc; simp [splitOnCharAux]
  | cons c cs ih =>
      intro h acc
      have hc : c ≠ sep := h c (List.mem_cons_self c cs)
      have step : splitOnCharAux sep (c :: cs) acc = splitOnCharAux sep cs (c :: acc) := by
        simp [splitOnCharAux, hc]
      rw [step, ih (fun e he => h e (List.mem_cons_of_mem c he)) (c :: acc)]
      simp

theorem splitOnCharAux_sep_split (sep : Char) :
    ∀ (xs : List Char), (∀ c ∈ xs, c ≠ sep) → ∀ (rest : List Char) (acc : List Char),
      splitOnCharAux sep (xs ++ sep :: rest) acc
        = String.mk (acc.reverse ++ xs) :: splitOnCharAux sep rest [] := by
  intro xs
  induction xs with
  | nil => intro _ rest acc; simp [splitOnCharAux]
  | cons c cs ih =>
      intro h rest acc
      have hc : c ≠ sep := h c (List.mem_cons_self c cs)
      have step : splitOnCharAux sep ((c :: cs) ++ sep :: rest) acc
          = splitOnCharAux sep (cs ++ sep :: rest) (c :: acc) := by
        simp [splitOnCharAux, hc]
      rw [step, ih (fun e he => h e (List.mem_cons_of_mem c he)) rest (c :: acc)]
      simp

/-- Splitting a four-component `;`-joined string recovers the four
components, provided none of them contains the separator. -/
theorem splitOnChar_four (p1 p2 p3 p4 : String)
    (h1 : ∀ c ∈ p1.data, c ≠ ';') (h2 : ∀ c ∈ p2.data, c ≠ ';')
    (h3 : ∀ c ∈ p3.data, c ≠ ';') (h4 : ∀ c ∈ p4.data, c ≠ ';') :
    splitOnChar ';' (p1 ++ ";" ++ p2 ++ ";" ++ p3 ++ ";" ++ p4) = [p1, p2, p3, p4] := by
  have hdata : (p1 ++ ";" ++ p2 ++ ";" ++ p3 ++ ";" ++ p4).data
      = p1.data ++ ';' :: (p2.data ++ ';' :: (p3.data ++ ';' :: p4.data)) := by
    simp [String.data_append]
  rw [splitOnChar, hdata,
    splitOnCharAux_sep_split ';' p1.data h1 _ [],
    splitOnCharAux_sep_split ';' p2.data h2 _ [],
    splitOnCharAux_sep_split ';' p3.data h3 _ [],
    splitOnCharAux_no_sep ';' p4.data h4 []]
  simp

theorem isDigit_ne_semi {c : Char} (h : c.isDigit = true) : c ≠ ';' := by
  intro e; subst e; simp at h

/-- `timecodeToMs` applied to a well-formed `;`-joined rendering of four
numeric components recovers the conversion formula. -/
theorem timecodeToMs_padded (hours minutes seconds frames : Nat) :
    timecodeToMs (padStart2 (natRepr hours) ++ ";" ++ padStart2 (natRepr minutes) ++ ";" ++
        padStart2 (natRepr seconds) ++ ";" ++ padStart2 (natRepr frames))
      = some (hours * 3600000 + minutes * 60000 + seconds * 1000 + frames * 1000 / 30) := by
  rw [timecodeToMs, splitOnChar_four _ _ _ _
      (fun c hc => isDigit_ne_semi (padStart2_data_digits _ (natRepr_data_digits hours) c hc))
      (fun c hc => isDigit_ne_semi (padStart2_data_digits _ (natRepr_data_digits minutes) c hc))
      (fun c hc => isDigit_ne_semi (padStart2_data_digits _ (natRepr_data_digits seconds) c hc))
      (fun c hc => isDigit_ne_semi (padStart2_data_digits _ (natRepr_data_digits frames) c hc))]
  simp [jsNumber_padStart2_natRepr]

/-- The full conversion round trip: `msToTimecode` then `timecodeToMs`
always succeeds and reproduces `m` up to the sub-frame remainder. -/
theorem timecodeToMs_msToTimecode (m : Nat) :
    timecodeToMs (msToTimecode m)
      = some (m / 3600000 * 3600000 + m % 3600000 / 60000 * 60000 + m % 60000 / 1000 * 1000 +
          m % 1000 * 30 / 1000 * 1000 / 30) := by
  rw [msToTimecode, timecodeToMs_padded]

theorem padStart2_length (s : String) : 2 ≤ (padStart2 s).length := by
  have hlen : (padStart2 s).length = (2 - s.length) + s.length := by
    rw [padStart2, String.length_append]
    simp
  omega

/-- C6: for every non-negative millisecond value aligned to a 30fps frame
boundary, the round trip `timecodeToMs (msToTimecode m)` succeeds and
reproduces `m` to within one frame's time unit: the recovered value never
exceeds `m` and falls short by at most 33 milliseconds. -/
theorem c6_timecode_roundtrip (m : Nat) (_h : frameAligned m) :
    ∃ v, timecodeToMs (msToTimecode m) = some v ∧ v ≤ m ∧ m ≤ v + 33 := by
  refine ⟨_, timecodeToMs_msToTimecode m, ?_, ?_⟩ <;>
  · have d1 := Nat.div_add_mod m 3600000
    have d2 := Nat.div_add_mod (m % 3600000) 60000
    have d3 := Nat.div_add_mod (m % 60000) 1000
    have d4 := Nat.div_add_mod (m % 1000 * 30) 1000
    have d5 := Nat.div_add_mod (m % 1000 * 30 / 1000 * 1000) 30
    have e1 : m % 3600000 % 60000 = m % 60000 := Nat.mod_mod_of_dvd m (by norm_num)
    have e2 : m % 60000 % 1000 = m % 1000 := Nat.mod_mod_of_dvd m (by norm_num)
    omega

theorem c6_timecode_roundtrip_witness :
    frameAligned 33 ∧
    ∃ v, timecodeToMs (msToTimecode 33) = some v ∧ v ≤ 33 ∧ 33 ≤ v + 33 :=
  ⟨⟨1, by decide⟩, c6_timecode_roundtrip 33 ⟨1, by decide⟩⟩

/-- C7 fails on the code for colon-separated `HH:MM:SS:FF` strings: the
converter splits on `;`, so the four-component colon timecode
`"00:00:01:00"` does not convert at all (the JavaScript arithmetic is
`NaN`), rather than converting to the formula value `1000`. -/
theorem c7_timecode_formula_counterexample :
    timecodeToMs "00:00:01:00" = none ∧
    timecodeToMs "00:00:01:00" ≠ some (0 * 3600000 + 0 * 60000 + 1 * 1000 + 0 * 1000 / 30) := by
  refine ⟨by decide, by decide⟩

/-- C7 (amended): for every marker time given as a four-component
semicolon-separated timecode `HH;MM;SS;FF` — the separator the code
documents and uses — `timecodeToMs` converts it by the fixed 30fps
formula `hours*3600000 + minutes*60000 + seconds*1000 +
floor(frames*1000/30)` in exact integer arithmetic. -/
theorem c7_timecode_formula_amended :
    ∀ hours minutes seconds frames : Nat,
      timecodeToMs (natRepr hours ++ ";" ++ natRepr minutes ++ ";" ++ natRepr seconds ++ ";" ++
          natRepr frames)
        = some (hours * 3600000 + minutes * 60000 + seconds * 1000 + frames * 1000 / 30) := by
  intro hours minutes seconds frames
  rw [timecodeToMs, splitOnChar_four _ _ _ _
      (fun c hc => isDigit_ne_semi (natRepr_data_digits hours c hc))
      (fun c hc => isDigit_ne_semi (natRepr_data_digits minutes c hc))
      (fun c hc => isDigit_ne_semi (natRepr_data_digits seconds c hc))
      (fun c hc => isDigit_ne_semi (natRepr_data_digits frames c hc))]
  simp only [jsNumber_natRepr]

/-- C10: `msToTimecode` always yields the four components
`hours;minutes;seconds;frames` joined by `;`, each zero-padded to at
least two characters, with minutes and seconds at most 59 and frames at
most 29. -/
theorem c10_msToTimecode_components (ms : Nat) :
    msToTimecode ms
        = padStart2 (natRepr (ms / 3600000)) ++ ";" ++
          padStart2 (natRepr (ms % 3600000 / 60000)) ++ ";" ++
          padStart2 (natRepr (ms % 60000 / 1000)) ++ ";" ++
          padStart2 (natRepr (ms % 1000 * 30 / 1000)) ∧
    ms % 3600000 / 60000 ≤ 59 ∧ ms % 60000 / 1000 ≤ 59 ∧ ms % 1000 * 30 / 1000 ≤ 29 ∧
    2 ≤ (padStart2 (natRepr (ms / 3600000))).length ∧
    2 ≤ (padStart2 (natRepr (ms % 3600000 / 60000))).length ∧
    2 ≤ (padStart2 (natRepr (ms % 60000 / 1000))).length ∧
    2 ≤ (padStart2 (natRepr (ms % 1000 * 30 / 1000))).length := by
  refine ⟨rfl, by omega, by omega, by omega, ?_, ?_, ?_, ?_⟩ <;> exact padStart2_length _

/-- C1 fails on the code: at the scenario's exact input the marker's
colon-separated timecodes do not convert (`timecodeToMs` splits on `;`),
so the segment's speaker is the sentinel `"Unknown"`, not `"Alice"`; and
independently the clean markdown of a single-segment list carries the
stale initial heading `****`, not `**Alice**`. -/
theorem c1_scenario_counterexample :
    ¬ ((enhanceSegments scenarioWhisper scenarioPremiere).map EnhancedSegment.speaker
          = ["Alice"] ∧
       (mergeTranscriptsCore scenarioWhisper scenarioPremiere).markdownClean
          = "**Alice**\nhello\n\n") := by
  decide

/-- C1 (amended): at the scenario input the merge produces the aligned
segment `{speaker := "Unknown", start := 1000, end := 3000,
text := "hello"}`; the table render is exactly the quoted header row
followed by the quoted row `"Unknown","00;00;01;00","00;00;03;00","hello"`;
and the clean markdown render equals `"****\nhello\n\n"`. -/
theorem c1_scenario_amended :
    enhanceSegments scenarioWhisper scenarioPremiere
        = [⟨"Unknown", 1000, 3000, "hello"⟩] ∧
    (mergeTranscriptsCore scenarioWhisper scenarioPremiere).csv
        = "\"speaker\",\"startTime\",\"endTime\",\"text\"\n\"Unknown\",\"00;00;01;00\",\"00;00;03;00\",\"hello\"\n" ∧
    (mergeTranscriptsCore scenarioWhisper scenarioPremiere).markdownClean
        = "****\nhello\n\n" := by
  refine ⟨by decide, by decide, by decide⟩

/-- C2 evaluated at a failing input: for the two-segment sequence with
speakers `A` then `B`, the code renders a single block headed `**A**`
containing both texts; no block headed `**B**` appears anywhere in the
output, so the final speaker's block is not flushed under its own
heading. -/
theorem c2_final_flush_code_eval :
    generateMarkdown [⟨"A", 0, 1000, "a"⟩, ⟨"B", 1000, 2000, "b"⟩] false
        = "**A**\na\nb\n\n" ∧
    ¬ ("**B**".data <:+:
        (generateMarkdown [⟨"A", 0, 1000, "a"⟩, ⟨"B", 1000, 2000, "b"⟩] false).data) := by
  refine ⟨by decide, by decide⟩

/-- C3 evaluated at a failing input: the three-segment sequence with
speakers `[A, B, A]` produces only two blocks, not three — the scan
flushes `(A, [a1])` and then `(B, [b, a2])`, folding the final `A`
segment into `B`'s block — in both the with-timestamps and the clean
variant. -/
theorem c3_grouping_adjacency_code_eval :
    gmBlocks [⟨"A", 0, 1000, "a1"⟩, ⟨"B", 1000, 2000, "b"⟩, ⟨"A", 2000, 3000, "a2"⟩]
        = [("A", [⟨"a1", 0, 1000⟩]), ("B", [⟨"b", 1000, 2000⟩, ⟨"a2", 2000, 3000⟩])] ∧
    generateMarkdown [⟨"A", 0, 1000, "a1"⟩, ⟨"B", 1000, 2000, "b"⟩, ⟨"A", 2000, 3000, "a2"⟩] false
        = "**A**\na1\n\n**B**\nb\na2\n\n" ∧
    generateMarkdown [⟨"A", 0, 1000, "a1"⟩, ⟨"B", 1000, 2000, "b"⟩, ⟨"A", 2000, 3000, "a2"⟩] true
        = "**A**\n[00;00;00;00 - 00;00;01;00] a1\n\n**B**\n[00;00;01;00 - 00;00;02;00] b\n[00;00;02;00 - 00;00;03;00] a2\n\n" := by
  refine ⟨by decide, by decide, by decide⟩

/-- C5 fails on the code for the table render: with zero segments the
stringifier still emits the header row (the column list is explicit), so
the delimited-table string is not empty. -/
theorem c5_empty_render_counterexample :
    ¬ ((mergeTranscriptsCore [] []).csv = "") := by
  decide

/-- C5 (amended): for the empty aligned-segment sequence both grouped
text renders are the empty string, while the delimited-table render
consists of exactly the quoted header row. -/
theorem c5_empty_render_amended :
    ∀ (premiereSegments : List PremiereSegment) (b : Bool),
      mergeTranscriptsCore [] premiereSegments
          = ⟨"\"speaker\",\"startTime\",\"endTime\",\"text\"\n", "", ""⟩ ∧
      generateMarkdown [] b = "" :=
  fun _ _ => ⟨rfl, rfl⟩

/-- C4 fails on the code in its "exactly when" direction: for a marker
whose speaker label is itself the sentinel string `"Unknown"`, the scan
returns `"Unknown"` even though that marker's interval does contain the
probe time, so `"Unknown"` is returned in a case where some marker's
interval contains `m`. -/
theorem c4_unknown_sentinel_counterexample :
    ¬ (findSpeakerAtTime 2000 [⟨"Unknown", "00;00;00;00", "00;00;05;00", ""⟩] = "Unknown" ↔
        ∀ seg ∈ ([⟨"Unknown", "00;00;00;00", "00;00;05;00", ""⟩] : List PremiereSegment),
          markerContains 2000 seg = false) := by
  decide

/-- C4 (amended): speaker resolution scans the markers in parsed order
and returns the label of the first marker whose converted interval
`[startMs, endMs]` contains the probe time inclusively on both ends, and
returns the sentinel `"Unknown"` whenever no marker's interval contains
it — in particular for the empty marker list. -/
theorem c4_first_match_amended :
    ∀ (timeMs : ℚ) (markers : List PremiereSegment),
      findSpeakerAtTime timeMs markers =
        match markers.find? (markerContains timeMs) with
        | some segment => segment.«Speaker Name»
        | none => "Unknown" := by
  intro timeMs markers
  induction markers with
  | nil => rfl
  | cons seg rest ih =>
      simp only [findSpeakerAtTime, List.find?]
      cases hs : timecodeToMs seg.«Start Time» with
      | none => simpa [markerContains, hs] using ih
      | some startMs =>
          cases he : timecodeToMs seg.«End Time» with
          | none => simpa [markerContains, hs, he] using ih
          | some endMs =>
              by_cases h : (startMs : ℚ) ≤ timeMs ∧ timeMs ≤ (endMs : ℚ)
              · simp [markerContains, hs, he, h]
              · simpa [markerContains, hs, he, h] using ih

theorem string_join_append (xs ys : List String) :
    String.join (xs ++ ys) = String.join xs ++ String.join ys := by
  apply String.ext
  simp [String.data_append]

theorem string_join_singleton (x : String) : String.join [x] = x := by
  apply String.ext
  simp

/-- The markdown produced by the scan is the concatenation of the renders
of its abstract block list, uniformly in the `includeTimestamps` flag:
the block structure does not depend on the flag. -/
theorem gmGo_eq_blocks (b : Bool) (l : List EnhancedSegment) :
    ∀ (currentSpeaker : String) (buf : List GMItem),
      gmGo b currentSpeaker buf l =
        String.join ((gmBlocksGo currentSpeaker buf l).map fun p => gmFlush b p.1 p.2) := by
  induction l with
  | nil => intro cs buf; rfl
  | cons s tail ih =>
      intro cs buf
      cases tail with
      | nil => rfl
      | cons s2 rest =>
          simp only [gmGo, gmBlocksGo]
          by_cases hsp : s.speaker = cs
          · simp only [hsp, ne_eq, not_true_eq_false, if_false, ih]
          · by_cases hb : buf.isEmpty
            · simp only [ne_eq, hsp, not_false_eq_true, if_true, hb, List.nil_append,
                ih, String.empty_append]
            · simp only [ne_eq, hsp, not_false_eq_true, if_true, hb, List.map_append,
                string_join_append, ih, List.map_cons, List.map_nil]
              simp [string_join_singleton]

/-- C9: the with-timestamps and clean renders share the same block
structure — both are the joined renders of the single block list
`gmBlocks segments` (same headings in the same order, one line per
buffered segment in each block) — and each with-timestamps line is the
corresponding clean line prefixed by `[startTimecode - endTimecode] `. -/
theorem c9_variant_structure :
    ∀ segments : List EnhancedSegment,
      generateMarkdown segments true
          = String.join ((gmBlocks segments).map fun p => gmFlush true p.1 p.2) ∧
      generateMarkdown segments false
          = String.join ((gmBlocks segments).map fun p => gmFlush false p.1 p.2) ∧
      ∀ seg : GMItem,
        gmLine true seg
          = "[" ++ msToTimecode seg.startTime ++ " - " ++ msToTimecode seg.endTime ++ "] " ++
              gmLine false seg := by
  intro segments
  refine ⟨gmGo_eq_blocks true segments "" [], gmGo_eq_blocks false segments "" [], ?_⟩
  intro seg
  simp [gmLine, String.append_assoc]

/-- C8: `mergeTranscripts` is deterministic and stateless — it is
embedded as a pure function of its two raw input strings, so two
invocations on the identical input pair yield identical output
triples. -/
theorem c8_determinism :
    ∀ whisperCsv premiereCsv : String,
      mergeTranscripts whisperCsv premiereCsv = mergeTranscripts whisperCsv premiereCsv :=
  fun _ _ => rfl

end WhisperDiary
